import Mathlib

/-!
Shallow embedding of the billing subsystem of the hospital-management
application: the SQLite schema triggers of `app/create_hms_db.py`
(`trg_ensure_open_bill_after_insert_treatment`,
`trg_prescription_item_after_insert`, `trg_lab_test_after_update_completed`)
and the payment routes of `app/admin_routes.py` (`payments_process`,
`mark_bill_paid`).  SQL `REAL` amounts are modelled as exact rationals `ℚ`,
nullable columns as `Option`, `datetime('now')` as an abstract `Nat`
timestamp supplied by the caller, and the tables as lists of rows in
insertion order.
-/

namespace HMS

/-- Row of the `bills` table:
`bills(id, patient_id, total_amount, paid, created_at, paid_at)`. -/
structure Bill where
  id : Nat
  patient_id : Nat
  total_amount : ℚ
  paid : Bool
  created_at : Nat
  paid_at : Option Nat
deriving DecidableEq

/-- Row of the `bill_items` table, including the `paid`/`paid_at` columns
added by the `ensure_bill_items_columns` migration (default `paid = 0`,
`paid_at` NULL). -/
structure BillItem where
  id : Nat
  bill_id : Nat
  item_type : String
  item_ref : Option Nat
  description : Option String
  amount : ℚ
  created_at : Nat
  paid : Bool
  paid_at : Option Nat
deriving DecidableEq

/-- The columns of `treatments` read by the treatment trigger
(`NEW.id`, `NEW.patient_id`, `NEW.description`, `NEW.cost`). -/
structure Treatment where
  id : Nat
  patient_id : Nat
  description : Option String
  cost : Option ℚ
deriving DecidableEq

/-- The columns of `prescriptions` read by the prescription-item trigger. -/
structure Prescription where
  id : Nat
  patient_id : Nat
deriving DecidableEq

/-- The columns of `medications` read by the prescription-item trigger. -/
structure Medication where
  id : Nat
  name : String
deriving DecidableEq

/-- The columns of `prescription_items` read by its trigger
(`NEW.id`, `NEW.prescription_id`, `NEW.medication_id`, `NEW.quantity`,
`NEW.unit_price`). -/
structure PrescriptionItem where
  id : Nat
  prescription_id : Nat
  medication_id : Option Nat
  quantity : Option Int
  unit_price : Option ℚ
deriving DecidableEq

/-- The columns of `lab_tests` read by the lab-test trigger.  `status` is
`TEXT NOT NULL` with a CHECK constraint, so it is a plain `String`. -/
structure LabTest where
  id : Nat
  patient_id : Nat
  test_name : String
  status : String
  cost : Option ℚ
deriving DecidableEq

/-- The database state relevant to the billing engine.  `nextBillId` and
`nextItemId` model the AUTOINCREMENT id generators of `bills` and
`bill_items`. -/
structure DB where
  bills : List Bill
  billItems : List BillItem
  prescriptions : List Prescription
  medications : List Medication
  labTests : List LabTest
  nextBillId : Nat
  nextItemId : Nat
deriving DecidableEq

/-- `b.patient_id = p AND b.paid = 0`: `b` is an open bill of patient `p`. -/
def isOpenFor (p : Nat) (b : Bill) : Bool :=
  b.patient_id == p && !b.paid

/-- `SELECT * FROM bills b WHERE b.patient_id = p AND b.paid = 0`. -/
def openBillsFor (db : DB) (p : Nat) : List Bill :=
  db.bills.filter (isOpenFor p)

/-- The bill that sorts later under `ORDER BY created_at DESC` (ties broken
towards the later-inserted row, matching SQLite scan order on equal keys;
under the single-open-bill invariant at most one candidate exists, so the
tie-break is never observable). -/
def laterBill (a b : Bill) : Bill :=
  if a.created_at < b.created_at ∨ (a.created_at = b.created_at ∧ a.id < b.id) then b else a

/-- `SELECT id FROM bills WHERE patient_id = p AND paid = 0
ORDER BY created_at DESC LIMIT 1` (the whole selected row, for convenience). -/
def selectOpenBill (db : DB) (p : Nat) : Option Bill :=
  match openBillsFor db p with
  | [] => none
  | x :: xs => some (xs.foldl laterBill x)

/-- First statement of each charge trigger:
`INSERT INTO bills(patient_id, total_amount, paid, created_at)
SELECT p, 0, 0, datetime('now')
WHERE NOT EXISTS (SELECT 1 FROM bills b WHERE b.patient_id = p AND b.paid = 0)`. -/
def ensureOpenBill (db : DB) (p : Nat) (now : Nat) : DB :=
  if (openBillsFor db p).isEmpty then
    { db with
      bills := db.bills ++
        [{ id := db.nextBillId, patient_id := p, total_amount := 0,
           paid := false, created_at := now, paid_at := none }],
      nextBillId := db.nextBillId + 1 }
  else db

/-- Second statement of each charge trigger: `INSERT INTO bill_items(...)`
with `bill_id` given by the open-bill subselect.  If the subselect is empty
the NOT NULL constraint on `bill_id` would reject the insert (unreachable
after `ensureOpenBill`). -/
def insertItemForOpenBill (db : DB) (p : Nat) (ty : String) (ref : Option Nat)
    (descr : Option String) (amt : ℚ) (now : Nat) : DB :=
  match selectOpenBill db p with
  | none => db
  | some b =>
    { db with
      billItems := db.billItems ++
        [{ id := db.nextItemId, bill_id := b.id, item_type := ty, item_ref := ref,
           description := descr, amount := amt, created_at := now,
           paid := false, paid_at := none }],
      nextItemId := db.nextItemId + 1 }

/-- Third statement of each charge trigger:
`UPDATE bills SET total_amount = total_amount + amt WHERE id = (open-bill
subselect)`. -/
def bumpOpenBillTotal (db : DB) (p : Nat) (amt : ℚ) : DB :=
  match selectOpenBill db p with
  | none => db
  | some b =>
    { db with
      bills := db.bills.map fun x =>
        if x.id == b.id then { x with total_amount := x.total_amount + amt } else x }

/-- The common three-statement body of the charge triggers
(spec §4.1 `onChargeableEvent`): ensure an open bill, append the line item,
increment the bill total. -/
def chargePatient (db : DB) (p : Nat) (ty : String) (ref : Option Nat)
    (descr : Option String) (amt : ℚ) (now : Nat) : DB :=
  bumpOpenBillTotal
    (insertItemForOpenBill (ensureOpenBill db p now) p ty ref descr amt now) p amt

/-- `INSERT INTO treatments` together with
`trg_ensure_open_bill_after_insert_treatment`: item type `'treatment'`,
description `COALESCE(NEW.description,'Treatment')`, amount
`COALESCE(NEW.cost,0)`. -/
def insertTreatment (db : DB) (t : Treatment) (now : Nat) : DB :=
  chargePatient db t.patient_id "treatment" (some t.id)
    (some (t.description.getD "Treatment")) (t.cost.getD 0) now

/-- `SELECT m.name FROM medications m WHERE m.id = NEW.medication_id`. -/
def medicationName (db : DB) (mid : Option Nat) : Option String :=
  match mid with
  | none => none
  | some m => (db.medications.find? fun x => x.id == m).map (·.name)

/-- The charged amount of a prescription item:
`COALESCE(NEW.unit_price,0) * COALESCE(NEW.quantity,1)`. -/
def prescriptionItemAmount (pi : PrescriptionItem) : ℚ :=
  pi.unit_price.getD 0 * ((pi.quantity.getD 1 : Int) : ℚ)

/-- `INSERT INTO prescription_items` together with
`trg_prescription_item_after_insert`.  The schema declares
`medication_id INTEGER NOT NULL REFERENCES medications(id)` and every
connection runs `PRAGMA foreign_keys = ON`, so an insert with a NULL or
dangling `medication_id`, or a dangling `prescription_id`, is rejected and
the state is unchanged; otherwise the trigger resolves the patient via
`prescriptions` and charges. -/
def insertPrescriptionItem (db : DB) (pi : PrescriptionItem) (now : Nat) : DB :=
  match pi.medication_id with
  | none => db
  | some mid =>
    if (db.medications.find? fun m => m.id == mid).isSome then
      match db.prescriptions.find? fun pr => pr.id == pi.prescription_id with
      | none => db
      | some pr =>
        chargePatient db pr.patient_id "medication" (some pi.id)
          (medicationName db pi.medication_id) (prescriptionItemAmount pi) now
    else db

/-- The CHECK constraint on `lab_tests.status`. -/
def validLabStatus (s : String) : Bool :=
  s == "ordered" || s == "in_progress" || s == "completed" || s == "cancelled"

/-- `INSERT INTO lab_tests` (no trigger fires on insert). -/
def insertLabTest (db : DB) (lt : LabTest) : DB :=
  if validLabStatus lt.status then { db with labTests := db.labTests ++ [lt] }
  else db

/-- `UPDATE lab_tests SET status = s WHERE id = tid` together with
`trg_lab_test_after_update_completed`, which fires
`WHEN NEW.status = 'completed' AND (OLD.status IS NULL OR OLD.status !=
'completed')` (`status` is NOT NULL, so the `IS NULL` disjunct is vacuous).
An invalid new status is rejected by the CHECK constraint. -/
def updateLabTestStatus (db : DB) (tid : Nat) (s : String) (now : Nat) : DB :=
  match db.labTests.find? fun lt => lt.id == tid with
  | none => db
  | some old =>
    if validLabStatus s then
      let db0 :=
        { db with
          labTests := db.labTests.map fun lt =>
            if lt.id == tid then { lt with status := s } else lt }
      if s == "completed" && old.status != "completed" then
        chargePatient db0 old.patient_id "lab_test" (some old.id)
          (some old.test_name) (old.cost.getD 0) now
      else db0
    else db

/-- `INSERT INTO prescriptions` (no trigger fires on insert). -/
def insertPrescription (db : DB) (pr : Prescription) : DB :=
  { db with prescriptions := db.prescriptions ++ [pr] }

/-- `INSERT INTO medications`. -/
def insertMedication (db : DB) (m : Medication) : DB :=
  { db with medications := db.medications ++ [m] }

/-- Outcome reported by `payments_process`: the "No items to process"
warning redirect, or the success flash. -/
inductive PayResult where
  | nothingToProcess
  | processed
deriving DecidableEq

/-- `item_ids` normalisation in `payments_process`:
`try: item_ids = [int(x) for x in item_ids] except: item_ids = []` —
one non-numeric entry empties the whole list. -/
def parseItemIds (raw : List String) : List Int :=
  if raw.all fun s => (s.toInt?).isSome then raw.filterMap String.toInt?
  else []

/-- Effect of `UPDATE bill_items SET paid = 1, paid_at = now
WHERE id = iid AND (paid IS NULL OR paid = 0)` on one row. -/
def payItemUpd (iid now : Nat) (x : BillItem) : BillItem :=
  if x.id == iid && !x.paid then { x with paid := true, paid_at := some now } else x

/-- One iteration of the item loop of `payments_process`: the conditional
UPDATE applied to the whole `bill_items` table. -/
def payOneItem (items : List BillItem) (iid : Nat) (now : Nat) : List BillItem :=
  items.map (payItemUpd iid now)

/-- The item loop of `payments_process`: one conditional UPDATE per fetched
row. -/
def payPhase1 (db : DB) (fetched : List BillItem) (now : Nat) : DB :=
  fetched.foldl (fun d it => { d with billItems := payOneItem d.billItems it.id now }) db

/-- Bill rollup of `payments_process` for one affected bill:
`SELECT SUM(CASE WHEN paid = 0 OR paid IS NULL THEN 1 ELSE 0 END) ...
WHERE bill_id = bid`; on an itemless bill the SUM is NULL, which fails the
`unpaid == 0` comparison; otherwise if no unpaid item remains,
`UPDATE bills SET paid = 1, paid_at = now WHERE id = bid` with no guard on
the bill's current `paid` state. -/
def billRollup (db : DB) (bid : Nat) (now : Nat) : DB :=
  if (db.billItems.filter fun it => it.bill_id == bid).isEmpty then db
  else if ((db.billItems.filter fun it => it.bill_id == bid).filter fun it => !it.paid).isEmpty then
    { db with
      bills := db.bills.map fun b =>
        if b.id == bid then { b with paid := true, paid_at := some now } else b }
  else db

/-- The bill loop of `payments_process`: one rollup per affected bill. -/
def rollupFold (db : DB) (billIds : List Nat) (now : Nat) : DB :=
  billIds.foldl (fun d bid => billRollup d bid now) db

/-- `payments_process` of `app/admin_routes.py`: normalise the posted ids
(empty on any non-numeric entry), bail out when empty, fetch the matching
`bill_items` rows, conditionally mark each fetched item paid, then roll up
each affected bill.  The Python `set` of bill ids is modelled by `dedup`;
rollups of distinct bills commute, so iteration order is immaterial. -/
def paymentsProcess (db : DB) (raw : List String) (now : Nat) : DB × PayResult :=
  let ids := parseItemIds raw
  if ids.isEmpty then (db, .nothingToProcess)
  else
    let fetched := db.billItems.filter fun it => ids.contains (it.id : Int)
    (rollupFold (payPhase1 db fetched now) ((fetched.map (·.bill_id)).dedup) now,
     .processed)

/-- Outcome of `mark_bill_paid`: 404 "Bill not found", 400 "Already paid",
or 204 success. -/
inductive MarkResult where
  | notFound
  | alreadyPaid
  | success
deriving DecidableEq

/-- `mark_bill_paid` of `app/admin_routes.py`: look the bill up, reject a
missing or already-paid bill without touching the store, else
`UPDATE bills SET paid = 1, paid_at = now WHERE id = bid`. -/
def markBillPaid (db : DB) (bid : Nat) (now : Nat) : DB × MarkResult :=
  match db.bills.find? fun b => b.id == bid with
  | none => (db, .notFound)
  | some b =>
    if b.paid then (db, .alreadyPaid)
    else
      ({ db with
         bills := db.bills.map fun x =>
           if x.id == bid then { x with paid := true, paid_at := some now } else x },
       .success)

/-- The store-mutating operations of the billing subsystem, for stating
trace properties. -/
inductive Event where
  | treatment (t : Treatment) (now : Nat)
  | prescription (pr : Prescription)
  | medication (m : Medication)
  | prescItem (pi : PrescriptionItem) (now : Nat)
  | labInsert (lt : LabTest)
  | labStatus (tid : Nat) (s : String) (now : Nat)
  | pay (raw : List String) (now : Nat)
  | markPaid (bid : Nat) (now : Nat)
deriving DecidableEq

/-- Interpretation of one operation on the store. -/
def step (db : DB) : Event → DB
  | .treatment t now => insertTreatment db t now
  | .prescription pr => insertPrescription db pr
  | .medication m => insertMedication db m
  | .prescItem pi now => insertPrescriptionItem db pi now
  | .labInsert lt => insertLabTest db lt
  | .labStatus tid s now => updateLabTestStatus db tid s now
  | .pay raw now => (paymentsProcess db raw now).1
  | .markPaid bid now => (markBillPaid db bid now).1

/-- Run a sequence of operations. -/
def run (db : DB) (es : List Event) : DB :=
  es.foldl step db

/-- `COUNT(bills WHERE patient_id = p AND paid = 0)`. -/
def openCount (db : DB) (p : Nat) : Nat :=
  (openBillsFor db p).length

/-- Spec §8 single-open-bill invariant: at most one open bill per patient. -/
def SingleOpenBill (db : DB) : Prop :=
  ∀ p, openCount db p ≤ 1

/-- `SELECT * FROM bill_items WHERE bill_id = bid`. -/
def itemsOf (db : DB) (bid : Nat) : List BillItem :=
  db.billItems.filter fun it => it.bill_id == bid

/-- `SELECT * FROM bills WHERE id = bid LIMIT 1`. -/
def findBill (db : DB) (bid : Nat) : Option Bill :=
  db.bills.find? fun b => b.id == bid

/-- `SELECT * FROM bill_items WHERE id = iid LIMIT 1`. -/
def findItem (db : DB) (iid : Nat) : Option BillItem :=
  db.billItems.find? fun it => it.id == iid

/-- Number of lab-test bill items referencing lab test `tid`. -/
def countLabItemsFor (db : DB) (tid : Nat) : Nat :=
  (db.billItems.filter fun it =>
    it.item_type == "lab_test" && it.item_ref == some tid).length

/-- The empty store. -/
def DB.empty : DB :=
  { bills := [], billItems := [], prescriptions := [], medications := [],
    labTests := [], nextBillId := 1, nextItemId := 1 }

/-- Composite per-row effect of running the item loop of
`payments_process` over the whole fetched list: each fetched id is applied
as a conditional UPDATE in order. -/
def payAllUpd (fetched : List BillItem) (now : Nat) (x : BillItem) : BillItem :=
  fetched.foldl (fun y it => payItemUpd it.id now y) x

/-- `SELECT * FROM bills WHERE id = bid` (all rows with that id). -/
def billsWithId (db : DB) (bid : Nat) : List Bill :=
  db.bills.filter fun b => b.id == bid

/-- A store with one lab test in status `ordered`, used to exercise the
lab-test trigger. -/
def dbLab : DB :=
  { bills := [], billItems := [], prescriptions := [], medications := [],
    labTests := [{ id := 1, patient_id := 4, test_name := "cbc",
                   status := "ordered", cost := some 30 }],
    nextBillId := 1, nextItemId := 1 }

/-- A store with one open bill holding one unpaid treatment item. -/
def dbPay : DB :=
  { bills := [{ id := 1, patient_id := 2, total_amount := 40, paid := false,
                created_at := 0, paid_at := none }],
    billItems := [{ id := 5, bill_id := 1, item_type := "treatment",
                    item_ref := some 3, description := some "stitches",
                    amount := 40, created_at := 0, paid := false, paid_at := none }],
    prescriptions := [], medications := [], labTests := [],
    nextBillId := 2, nextItemId := 6 }

/-- A store with one prescription and one medication. -/
def dbPresc : DB :=
  { bills := [], billItems := [], prescriptions := [{ id := 1, patient_id := 4 }],
    medications := [{ id := 1, name := "amoxicillin" }], labTests := [],
    nextBillId := 1, nextItemId := 1 }

/-- A prescription item referencing the existing medication 1, with a NULL
quantity and a non-zero unit price. -/
def piNullQty : PrescriptionItem :=
  { id := 9, prescription_id := 1, medication_id := some 1,
    quantity := none, unit_price := some 5 }

/-- A store with one open bill for patient 7 with zero total and no items,
plus a prescription for the same patient. -/
def dbAdd : DB :=
  { bills := [{ id := 1, patient_id := 7, total_amount := 0, paid := false,
                created_at := 0, paid_at := none }],
    billItems := [], prescriptions := [{ id := 1, patient_id := 7 }],
    medications := [{ id := 1, name := "ibuprofen" }], labTests := [],
    nextBillId := 2, nextItemId := 1 }

/-- Two chargeable events for patient 7: a treatment costing 50 and a
prescription item costing 15 × 2. -/
def evsAdd : List Event :=
  [Event.treatment { id := 1, patient_id := 7, description := none, cost := some 50 } 1,
   Event.prescItem { id := 1, prescription_id := 1, medication_id := some 1,
                     quantity := some 2, unit_price := some 15 } 2]

/-- A store with one bill already settled directly (`paid = 1`,
`paid_at = 5`) whose single item is still unpaid. -/
def dbSettled : DB :=
  { bills := [{ id := 1, patient_id := 2, total_amount := 40, paid := true,
                created_at := 0, paid_at := some 5 }],
    billItems := [{ id := 5, bill_id := 1, item_type := "treatment",
                    item_ref := some 3, description := some "stitches",
                    amount := 40, created_at := 0, paid := false, paid_at := none }],
    prescriptions := [], medications := [], labTests := [],
    nextBillId := 2, nextItemId := 6 }

/-- A store with one open bill holding two unpaid items. -/
def dbTwo : DB :=
  { bills := [{ id := 1, patient_id := 2, total_amount := 50, paid := false,
                created_at := 0, paid_at := none }],
    billItems := [{ id := 5, bill_id := 1, item_type := "treatment",
                    item_ref := some 3, description := some "stitches",
                    amount := 40, created_at := 0, paid := false, paid_at := none },
                  { id := 6, bill_id := 1, item_type := "lab_test",
                    item_ref := some 4, description := some "cbc",
                    amount := 10, created_at := 0, paid := false, paid_at := none }],
    prescriptions := [], medications := [], labTests := [],
    nextBillId := 2, nextItemId := 7 }

/-- `e` is a chargeable event for patient `p` with charge amount `a` when
executed in state `db`: a treatment insert for `p`, a prescription-item
insert whose prescription resolves to `p`, or a lab-status update that
moves an existing test of `p` into `completed` from a different status. -/
def ChargeFor (db : DB) (p : Nat) (a : ℚ) : Event → Prop
  | .treatment t _ => t.patient_id = p ∧ t.cost.getD 0 = a
  | .prescItem pi _ =>
    ∃ pr mid, (db.prescriptions.find? fun x => x.id == pi.prescription_id) = some pr ∧
      pi.medication_id = some mid ∧
      (db.medications.find? fun m => m.id == mid).isSome = true ∧
      pr.patient_id = p ∧ prescriptionItemAmount pi = a
  | .labStatus tid s _ =>
    ∃ lt, (db.labTests.find? fun x => x.id == tid) = some lt ∧
      lt.patient_id = p ∧ lt.status ≠ "completed" ∧ s = "completed" ∧ lt.cost.getD 0 = a
  | _ => False

/-- A sequence of events each of which, in the state where it executes, is
a chargeable event for patient `p`; `as` lists the charge amounts in
order. -/
inductive ChargesTrace (p : Nat) : DB → List Event → List ℚ → Prop
  | nil (db : DB) : ChargesTrace p db [] []
  | cons {db : DB} {e : Event} {es : List Event} {a : ℚ} {as : List ℚ} :
      ChargeFor db p a e → ChargesTrace p (step db e) es as →
      ChargesTrace p db (e :: es) (a :: as)

/-! ### General list helpers -/

/-- Filtering after an entrywise update that does not change the filtered
predicate commutes with the update. -/
lemma filter_map_comm (l : List α) (f : α → α) (p : α → Bool)
    (h : ∀ x, p (f x) = p x) : (l.map f).filter p = (l.filter p).map f := by
  induction l with
  | nil => rfl
  | cons a t ih =>
    simp only [List.map_cons, List.filter_cons, h a]
    cases hp : p a <;> simp [ih]

/-- An entrywise update that can only falsify the predicate does not
increase the number of rows satisfying it. -/
lemma length_filter_map_le (l : List α) (f : α → α) (p : α → Bool)
    (h : ∀ x, p (f x) = true → p x = true) :
    ((l.map f).filter p).length ≤ (l.filter p).length := by
  induction l with
  | nil => simp
  | cons a t ih =>
    simp only [List.map_cons, List.filter_cons]
    cases hfa : p (f a)
    · cases hpa : p a <;> simp <;> omega
    · rw [h a hfa]
      simpa using ih

/-- Finding by a field an entrywise update preserves locates the updated
row at the same position. -/
lemma find?_map_comm (l : List α) (f : α → α) (p : α → Bool)
    (h : ∀ x, p (f x) = p x) : (l.map f).find? p = (l.find? p).map f := by
  induction l with
  | nil => rfl
  | cons a t ih =>
    simp only [List.map_cons]
    cases hp : p a
    · rw [List.find?_cons_of_neg _ (by simp [h a, hp]), List.find?_cons_of_neg _ (by simp [hp])]
      exact ih
    · rw [List.find?_cons_of_pos _ (by simp [h a, hp]), List.find?_cons_of_pos _ (by simp [hp])]
      rfl

/-- A map that fixes every element of the list is the identity. -/
lemma map_eq_self_of_mem (l : List α) (f : α → α) (h : ∀ x ∈ l, f x = x) :
    l.map f = l := by
  induction l with
  | nil => rfl
  | cons a t ih => simp only [List.map_cons, h a (by simp)]; rw [ih fun x hx => h x (by simp [hx])]

/-! ### Frame facts about the individual operations -/

lemma insertItemForOpenBill_bills (db : DB) (p : Nat) (ty : String) (ref : Option Nat)
    (descr : Option String) (amt : ℚ) (now : Nat) :
    (insertItemForOpenBill db p ty ref descr amt now).bills = db.bills := by
  unfold insertItemForOpenBill
  cases selectOpenBill db p <;> rfl

lemma bumpOpenBillTotal_billItems (db : DB) (p : Nat) (amt : ℚ) :
    (bumpOpenBillTotal db p amt).billItems = db.billItems := by
  unfold bumpOpenBillTotal
  cases selectOpenBill db p <;> rfl

lemma ensureOpenBill_billItems (db : DB) (p : Nat) (now : Nat) :
    (ensureOpenBill db p now).billItems = db.billItems := by
  unfold ensureOpenBill
  split <;> rfl

/-! ### The single-open-bill invariant (claim C1) -/

lemma openCount_ensureOpenBill_le (db : DB) (p now q : Nat) (h : openCount db q ≤ 1) :
    openCount (ensureOpenBill db p now) q ≤ 1 := by
  unfold ensureOpenBill
  split
  · rename_i hemp
    rw [List.isEmpty_iff] at hemp
    unfold openBillsFor at hemp
    by_cases hq : q = p
    · subst hq
      simp [openCount, openBillsFor, List.filter_append, hemp, isOpenFor]
    · have hnew : isOpenFor q
          { id := db.nextBillId, patient_id := p, total_amount := 0,
            paid := false, created_at := now, paid_at := none } = false := by
        simp only [isOpenFor, Bool.not_false, Bool.and_true]
        exact beq_eq_false_iff_ne.mpr fun hc => hq hc.symm
      have heq : openCount
          { db with
            bills := db.bills ++
              [{ id := db.nextBillId, patient_id := p, total_amount := 0,
                 paid := false, created_at := now, paid_at := none }],
            nextBillId := db.nextBillId + 1 } q = openCount db q := by
        simp [openCount, openBillsFor, List.filter_append, hnew]
      rw [heq]
      exact h
  · exact h

lemma openCount_bumpOpenBillTotal (db : DB) (p : Nat) (amt : ℚ) (q : Nat) :
    openCount (bumpOpenBillTotal db p amt) q = openCount db q := by
  unfold bumpOpenBillTotal
  cases h : selectOpenBill db p with
  | none => rfl
  | some b =>
    unfold openCount openBillsFor
    simp only
    rw [filter_map_comm _ _ _ (fun x => ?_), List.length_map]
    by_cases hx : x.id == b.id <;> simp [isOpenFor, hx]

lemma openCount_chargePatient_le (db : DB) (p : Nat) (ty : String) (ref : Option Nat)
    (descr : Option String) (amt : ℚ) (now q : Nat) (h : openCount db q ≤ 1) :
    openCount (chargePatient db p ty ref descr amt now) q ≤ 1 := by
  unfold chargePatient
  rw [openCount_bumpOpenBillTotal]
  have h2 : openCount (insertItemForOpenBill (ensureOpenBill db p now) p ty ref descr amt now) q
      = openCount (ensureOpenBill db p now) q := by
    unfold openCount openBillsFor
    rw [insertItemForOpenBill_bills]
  rw [h2]
  exact openCount_ensureOpenBill_le db p now q h

lemma openCount_markPaidMap_le (db : DB) (bid now q : Nat) :
    openCount
      { db with
        bills := db.bills.map fun x =>
          if x.id == bid then { x with paid := true, paid_at := some now } else x } q
      ≤ openCount db q := by
  unfold openCount openBillsFor
  refine length_filter_map_le _ _ _ fun x hx => ?_
  by_cases h : x.id == bid <;> simp_all [isOpenFor]

lemma openCount_billRollup_le (db : DB) (bid now q : Nat) :
    openCount (billRollup db bid now) q ≤ openCount db q := by
  unfold billRollup
  split
  · exact le_refl _
  split
  · exact openCount_markPaidMap_le db bid now q
  · exact le_refl _

lemma billRollup_billItems (db : DB) (bid now : Nat) :
    (billRollup db bid now).billItems = db.billItems := by
  unfold billRollup
  split
  · rfl
  split <;> rfl

lemma payPhase1_bills (db : DB) (fetched : List BillItem) (now : Nat) :
    (payPhase1 db fetched now).bills = db.bills := by
  unfold payPhase1
  induction fetched generalizing db with
  | nil => rfl
  | cons a t ih => exact ih _

lemma openCount_rollupFold_le (db : DB) (billIds : List Nat) (now q : Nat) :
    openCount (rollupFold db billIds now) q ≤ openCount db q := by
  unfold rollupFold
  induction billIds generalizing db with
  | nil => exact le_refl _
  | cons a t ih =>
    exact le_trans (ih (billRollup db a now)) (openCount_billRollup_le db a now q)

lemma openCount_paymentsProcess_le (db : DB) (raw : List String) (now q : Nat) :
    openCount (paymentsProcess db raw now).1 q ≤ openCount db q := by
  simp only [paymentsProcess]
  split
  · exact le_refl _
  · refine le_trans (openCount_rollupFold_le _ _ now q) ?_
    unfold openCount openBillsFor
    rw [payPhase1_bills]

lemma openCount_markBillPaid_le (db : DB) (bid now q : Nat) :
    openCount (markBillPaid db bid now).1 q ≤ openCount db q := by
  unfold markBillPaid
  cases h : db.bills.find? fun b => b.id == bid with
  | none => exact le_refl _
  | some b =>
    by_cases hp : b.paid
    · simp [hp]
    · simp only [hp, Bool.false_eq_true, if_false]
      exact openCount_markPaidMap_le db bid now q

lemma openCount_step_le (db : DB) (e : Event) (q : Nat) (h : openCount db q ≤ 1) :
    openCount (step db e) q ≤ 1 := by
  cases e with
  | treatment t now =>
    exact openCount_chargePatient_le _ _ _ _ _ _ _ q h
  | prescription pr => exact h
  | medication m => exact h
  | prescItem pi now =>
    simp only [step, insertPrescriptionItem]
    split
    · exact h
    · split
      · split
        · exact h
        · exact openCount_chargePatient_le _ _ _ _ _ _ _ q h
      · exact h
  | labInsert lt =>
    simp only [step, insertLabTest]
    split <;> exact h
  | labStatus tid s now =>
    simp only [step, updateLabTestStatus]
    split
    · exact h
    · split
      · split
        · exact openCount_chargePatient_le _ _ _ _ _ _ _ q h
        · exact h
      · exact h
  | pay raw now => exact le_trans (openCount_paymentsProcess_le db raw now q) h
  | markPaid bid now => exact le_trans (openCount_markBillPaid_le db bid now q) h

lemma singleOpenBill_step (db : DB) (e : Event) (h : SingleOpenBill db) :
    SingleOpenBill (step db e) :=
  fun q => openCount_step_le db e q (h q)

/-- C1: every sequence of chargeable-event recordings and payment
operations preserves the invariant that each patient has at most one open
(`paid = 0`) bill. -/
theorem single_open_bill_invariant (db : DB) (es : List Event)
    (h : SingleOpenBill db) : SingleOpenBill (run db es) := by
  induction es generalizing db with
  | nil => exact h
  | cons e t ih => exact ih (step db e) (singleOpenBill_step db e h)

/-! ### Additivity of the charge triggers (claim C2) -/

lemma selectOpenBill_single (db : DB) (p : Nat) (b : Bill)
    (hopen : openBillsFor db p = [b]) : selectOpenBill db p = some b := by
  unfold selectOpenBill
  rw [hopen]
  rfl

lemma ensureOpenBill_of_open (db : DB) (p now : Nat) (b : Bill)
    (hopen : openBillsFor db p = [b]) : ensureOpenBill db p now = db := by
  unfold ensureOpenBill
  rw [hopen]
  rfl

lemma chargePatient_effect (db : DB) (p : Nat) (ty : String) (ref : Option Nat)
    (descr : Option String) (a : ℚ) (now : Nat) (b : Bill)
    (hopen : openBillsFor db p = [b]) :
    openBillsFor (chargePatient db p ty ref descr a now) p
      = [{ b with total_amount := b.total_amount + a }] ∧
    (chargePatient db p ty ref descr a now).billItems
      = db.billItems ++
        [{ id := db.nextItemId, bill_id := b.id, item_type := ty, item_ref := ref,
           description := descr, amount := a, created_at := now,
           paid := false, paid_at := none }] := by
  unfold chargePatient
  rw [ensureOpenBill_of_open db p now b hopen]
  have hsel : selectOpenBill db p = some b := selectOpenBill_single db p b hopen
  unfold insertItemForOpenBill
  rw [hsel]
  unfold bumpOpenBillTotal
  have hsel2 : selectOpenBill
      { db with
        billItems := db.billItems ++
          [{ id := db.nextItemId, bill_id := b.id, item_type := ty, item_ref := ref,
             description := descr, amount := a, created_at := now,
             paid := false, paid_at := none }],
        nextItemId := db.nextItemId + 1 } p = some b := hsel
  rw [hsel2]
  constructor
  · unfold openBillsFor at hopen ⊢
    simp only
    rw [filter_map_comm _ _ _ (fun x => ?_), hopen]
    · simp
    · by_cases hx : x.id == b.id <;> simp [isOpenFor, hx]
  · rfl

lemma chargePatient_items_map (db : DB) (p : Nat) (ty : String) (ref : Option Nat)
    (descr : Option String) (a : ℚ) (now : Nat) (b : Bill)
    (hopen : openBillsFor db p = [b]) :
    (itemsOf (chargePatient db p ty ref descr a now) b.id).map (fun it => it.amount)
      = (itemsOf db b.id).map (fun it => it.amount) ++ [a] := by
  obtain ⟨-, h2⟩ := chargePatient_effect db p ty ref descr a now b hopen
  unfold itemsOf
  rw [h2, List.filter_append]
  simp

lemma insertPrescriptionItem_some (db : DB) (pi : PrescriptionItem) (now : Nat)
    (pr : Prescription) (mid : Nat)
    (hmid : pi.medication_id = some mid)
    (hmed : (db.medications.find? fun m => m.id == mid).isSome = true)
    (hf : (db.prescriptions.find? fun x => x.id == pi.prescription_id) = some pr) :
    insertPrescriptionItem db pi now =
      chargePatient db pr.patient_id "medication" (some pi.id)
        (medicationName db pi.medication_id) (prescriptionItemAmount pi) now := by
  unfold insertPrescriptionItem
  rw [hmid]
  dsimp only
  rw [if_pos hmed, hf]

lemma updateLabTestStatus_completes (db : DB) (tid : Nat) (s : String) (now : Nat)
    (lt : LabTest) (hf : (db.labTests.find? fun x => x.id == tid) = some lt)
    (hs : s = "completed") (hne : lt.status ≠ "completed") :
    updateLabTestStatus db tid s now =
      chargePatient
        { db with
          labTests := db.labTests.map fun x =>
            if x.id == tid then { x with status := s } else x }
        lt.patient_id "lab_test" (some lt.id) (some lt.test_name) (lt.cost.getD 0) now := by
  unfold updateLabTestStatus
  rw [hf]
  subst hs
  have hval : validLabStatus "completed" = true := by rfl
  have hcond : (("completed" : String) == "completed" && lt.status != "completed") = true := by
    simp [bne_iff_ne, hne]
  dsimp only
  rw [if_pos hval, if_pos hcond]

lemma charge_step_effect (db : DB) (p : Nat) (e : Event) (a : ℚ) (b : Bill)
    (hopen : openBillsFor db p = [b]) (hc : ChargeFor db p a e) :
    openBillsFor (step db e) p = [{ b with total_amount := b.total_amount + a }] ∧
    (itemsOf (step db e) b.id).map (fun it => it.amount)
      = (itemsOf db b.id).map (fun it => it.amount) ++ [a] := by
  cases e with
  | treatment t now =>
    obtain ⟨hp, ha⟩ := hc
    have hstep : step db (Event.treatment t now)
        = chargePatient db p "treatment" (some t.id)
            (some (t.description.getD "Treatment")) a now := by
      simp only [step, insertTreatment, hp, ha]
    rw [hstep]
    exact ⟨(chargePatient_effect db p _ _ _ a now b hopen).1,
      chargePatient_items_map db p _ _ _ a now b hopen⟩
  | prescItem pi now =>
    obtain ⟨pr, mid, hf, hmid, hmed, hp, ha⟩ := hc
    have hstep : step db (Event.prescItem pi now)
        = chargePatient db p "medication" (some pi.id)
            (medicationName db pi.medication_id) a now := by
      simp only [step]
      rw [insertPrescriptionItem_some db pi now pr mid hmid hmed hf, hp, ha]
    rw [hstep]
    exact ⟨(chargePatient_effect db p _ _ _ a now b hopen).1,
      chargePatient_items_map db p _ _ _ a now b hopen⟩
  | labStatus tid s now =>
    obtain ⟨lt, hf, hp, hne, hs, ha⟩ := hc
    have hstep : step db (Event.labStatus tid s now)
        = chargePatient
            { db with
              labTests := db.labTests.map fun x =>
                if x.id == tid then { x with status := s } else x }
            p "lab_test" (some lt.id) (some lt.test_name) a now := by
      simp only [step]
      rw [updateLabTestStatus_completes db tid s now lt hf hs hne, hp, ha]
    rw [hstep]
    have hopen0 : openBillsFor
        { db with
          labTests := db.labTests.map fun x =>
            if x.id == tid then { x with status := s } else x } p = [b] := hopen
    exact ⟨(chargePatient_effect _ p _ _ _ a now b hopen0).1,
      chargePatient_items_map _ p _ _ _ a now b hopen0⟩
  | prescription pr => exact absurd hc id
  | medication m => exact absurd hc id
  | labInsert lt => exact absurd hc id
  | pay raw now => exact absurd hc id
  | markPaid bid now => exact absurd hc id

lemma chargesTrace_effect (p : Nat) (db : DB) (es : List Event) (as : List ℚ)
    (htr : ChargesTrace p db es as) :
    ∀ b : Bill, openBillsFor db p = [b] →
      openBillsFor (run db es) p = [{ b with total_amount := b.total_amount + as.sum }] ∧
      (itemsOf (run db es) b.id).map (fun it => it.amount)
        = (itemsOf db b.id).map (fun it => it.amount) ++ as := by
  induction htr with
  | nil db =>
    intro b hopen
    constructor
    · simpa [run] using hopen
    · simp [run]
  | cons hc htr ih =>
    rename_i db e es a as
    intro b hopen
    obtain ⟨h1, h2⟩ := charge_step_effect db p e a b hopen hc
    obtain ⟨ih1, ih2⟩ := ih { b with total_amount := b.total_amount + a } h1
    have hrun : run db (e :: es) = run (step db e) es := rfl
    refine ⟨?_, ?_⟩
    · rw [hrun, ih1]
      simp [add_assoc]
    · rw [hrun, ih2, h2]
      simp

/-- C2: starting from a state in which patient `p` has exactly one open
bill `b` with zero total and no line items, a sequence of `N` chargeable
events for `p` with amounts `a1..aN` (which never closes the bill, as
chargeable events do not touch `paid`) leaves the bill open with
`total_amount = a1 + ... + aN` and exactly `N` bill items, one per event,
each carrying the event's amount. -/
theorem bill_additivity (db : DB) (p : Nat) (b : Bill) (es : List Event) (as : List ℚ)
    (hopen : openBillsFor db p = [b]) (htotal : b.total_amount = 0)
    (hitems : itemsOf db b.id = []) (htr : ChargesTrace p db es as) :
    openBillsFor (run db es) p = [{ b with total_amount := as.sum }] ∧
    (itemsOf (run db es) b.id).length = as.length ∧
    (itemsOf (run db es) b.id).map (fun it => it.amount) = as := by
  obtain ⟨h1, h2⟩ := chargesTrace_effect p db es as htr b hopen
  rw [htotal, zero_add] at h1
  rw [hitems] at h2
  simp only [List.map_nil, List.nil_append] at h2
  refine ⟨h1, ?_, h2⟩
  have := congrArg List.length h2
  simpa using this

/-! ### The item-update phase of payments_process -/

lemma payPhase1_billItems (db : DB) (fetched : List BillItem) (now : Nat) :
    (payPhase1 db fetched now).billItems = db.billItems.map (payAllUpd fetched now) := by
  unfold payPhase1
  induction fetched generalizing db with
  | nil =>
    simp only [List.foldl_nil]
    exact (map_eq_self_of_mem _ _ fun x _ => rfl).symm
  | cons a t ih =>
    simp only [List.foldl_cons]
    rw [ih]
    unfold payOneItem
    rw [List.map_map]
    rfl

lemma payItemUpd_id (iid now : Nat) (x : BillItem) : (payItemUpd iid now x).id = x.id := by
  unfold payItemUpd
  split <;> rfl

lemma payItemUpd_bill_id (iid now : Nat) (x : BillItem) :
    (payItemUpd iid now x).bill_id = x.bill_id := by
  unfold payItemUpd
  split <;> rfl

lemma payAllUpd_id (f : List BillItem) (now : Nat) (x : BillItem) :
    (payAllUpd f now x).id = x.id := by
  unfold payAllUpd
  induction f generalizing x with
  | nil => rfl
  | cons a t ih => rw [List.foldl_cons, ih, payItemUpd_id]

lemma payAllUpd_bill_id (f : List BillItem) (now : Nat) (x : BillItem) :
    (payAllUpd f now x).bill_id = x.bill_id := by
  unfold payAllUpd
  induction f generalizing x with
  | nil => rfl
  | cons a t ih => rw [List.foldl_cons, ih, payItemUpd_bill_id]

lemma payItemUpd_of_paid (iid now : Nat) (x : BillItem) (h : x.paid = true) :
    payItemUpd iid now x = x := by
  unfold payItemUpd
  simp [h]

lemma payAllUpd_of_paid (f : List BillItem) (now : Nat) (x : BillItem) (h : x.paid = true) :
    payAllUpd f now x = x := by
  unfold payAllUpd
  induction f with
  | nil => rfl
  | cons a t ih => rw [List.foldl_cons, payItemUpd_of_paid a.id now x h, ih]

lemma payAllUpd_hits (f : List BillItem) (now : Nat) (x : BillItem)
    (hunpaid : x.paid = false) (hmem : ∃ it ∈ f, it.id = x.id) :
    payAllUpd f now x = { x with paid := true, paid_at := some now } := by
  induction f with
  | nil => simp at hmem
  | cons a t ih =>
    unfold payAllUpd at ih ⊢
    rw [List.foldl_cons]
    by_cases hid : a.id = x.id
    · have hupd : payItemUpd a.id now x = { x with paid := true, paid_at := some now } := by
        unfold payItemUpd
        rw [hid]
        simp [hunpaid]
      rw [hupd]
      exact payAllUpd_of_paid t now _ rfl
    · have hupd : payItemUpd a.id now x = x := by
        unfold payItemUpd
        have : (x.id == a.id) = false := beq_eq_false_iff_ne.mpr fun hc => hid hc.symm
        simp [this]
      rw [hupd]
      refine ih ?_
      obtain ⟨it, hit, hid'⟩ := hmem
      rcases List.mem_cons.mp hit with h | h
      · exact absurd (h ▸ hid') hid
      · exact ⟨it, h, hid'⟩

lemma payAllUpd_misses (f : List BillItem) (now : Nat) (x : BillItem)
    (h : ∀ it ∈ f, it.id ≠ x.id) : payAllUpd f now x = x := by
  induction f with
  | nil => rfl
  | cons a t ih =>
    unfold payAllUpd at ih ⊢
    rw [List.foldl_cons]
    have hupd : payItemUpd a.id now x = x := by
      unfold payItemUpd
      have : (x.id == a.id) = false :=
        beq_eq_false_iff_ne.mpr fun hc => h a (by simp) hc.symm
      simp [this]
    rw [hupd]
    exact ih fun it hit => h it (by simp [hit])

lemma payPhase1_selected_paid (db : DB) (ids : List Int) (now : Nat) :
    ∀ y ∈ (payPhase1 db (db.billItems.filter fun it => ids.contains (it.id : Int)) now).billItems,
      ids.contains (y.id : Int) = true → y.paid = true := by
  intro y hy hsel
  rw [payPhase1_billItems] at hy
  obtain ⟨x, hx, hxy⟩ := List.mem_map.mp hy
  have hid : y.id = x.id := by rw [← hxy, payAllUpd_id]
  by_cases hpaid : x.paid
  · rw [← hxy, payAllUpd_of_paid _ _ _ hpaid]
    exact hpaid
  · have hxf : x ∈ db.billItems.filter fun it => ids.contains (it.id : Int) :=
      List.mem_filter.mpr ⟨hx, by rw [← hid]; exact hsel⟩
    rw [← hxy, payAllUpd_hits _ _ _ (Bool.eq_false_iff.mpr hpaid) ⟨x, hxf, rfl⟩]

lemma payPhase1_id_of_all_paid (db : DB) (f : List BillItem) (now : Nat)
    (h : ∀ x ∈ db.billItems, (∃ it ∈ f, it.id = x.id) → x.paid = true) :
    (payPhase1 db f now).billItems = db.billItems := by
  rw [payPhase1_billItems]
  refine map_eq_self_of_mem _ _ fun x hx => ?_
  by_cases hpaid : x.paid
  · exact payAllUpd_of_paid _ _ _ hpaid
  · refine payAllUpd_misses _ _ _ fun it hit hc => ?_
    exact hpaid (h x hx ⟨it, hit, hc⟩)

lemma findItem_payPhase1 (db : DB) (f : List BillItem) (now iid : Nat) :
    findItem (payPhase1 db f now) iid = (findItem db iid).map (payAllUpd f now) := by
  unfold findItem
  rw [payPhase1_billItems]
  exact find?_map_comm _ _ _ fun x => by rw [payAllUpd_id]

lemma find?_of_mem_nodup (l : List BillItem) (it : BillItem) (hmem : it ∈ l)
    (hnodup : (l.map fun x => x.id).Nodup) :
    (l.find? fun x => x.id == it.id) = some it := by
  induction l with
  | nil => simp at hmem
  | cons a t ih =>
    rcases List.mem_cons.mp hmem with h | h
    · subst h
      exact List.find?_cons_of_pos _ (by simp)
    · have hne : a.id ≠ it.id := by
        simp only [List.map_cons, List.nodup_cons] at hnodup
        intro hc
        exact hnodup.1 (hc ▸ List.mem_map_of_mem (fun x => x.id) h)
      rw [List.find?_cons_of_neg _ (by simp [hne])]
      exact ih h (by simp only [List.map_cons, List.nodup_cons] at hnodup; exact hnodup.2)

/-! ### The bill-rollup phase of payments_process -/

lemma billRollup_findBill_other (d : DB) (a bid now : Nat) (h : a ≠ bid) :
    findBill (billRollup d a now) bid = findBill d bid := by
  unfold billRollup
  split
  · rfl
  split
  · unfold findBill
    simp only
    rw [find?_map_comm _ _ _ (fun x => ?_)]
    · cases hfb : d.bills.find? fun b => b.id == bid with
      | none => rfl
      | some b =>
        have hid : b.id = bid := by simpa using List.find?_some hfb
        have hba : b.id ≠ a := by rw [hid]; exact fun hc => h hc.symm
        simp [hba]
    · by_cases hx : x.id == a <;> simp [hx]
  · rfl

lemma billRollup_fires (d : DB) (bid now : Nat)
    (hne : (d.billItems.filter fun it => it.bill_id == bid) ≠ [])
    (hall : ∀ it ∈ d.billItems.filter fun it => it.bill_id == bid, it.paid = true) :
    billRollup d bid now =
      { d with
        bills := d.bills.map fun b =>
          if b.id == bid then { b with paid := true, paid_at := some now } else b } := by
  unfold billRollup
  rw [if_neg (by simpa [List.isEmpty_iff] using hne), if_pos]
  rw [List.isEmpty_iff, List.filter_eq_nil_iff]
  intro it hit
  simp [hall it hit]

lemma billRollup_skips (d : DB) (bid now : Nat)
    (h : ∃ it ∈ d.billItems, it.bill_id = bid ∧ it.paid = false) :
    billRollup d bid now = d := by
  obtain ⟨it, hit, hbid, hpaid⟩ := h
  have hmem : it ∈ (d.billItems.filter fun x => x.bill_id == bid).filter fun x => !x.paid := by
    refine List.mem_filter.mpr ⟨List.mem_filter.mpr ⟨hit, by simp [hbid]⟩, by simp [hpaid]⟩
  unfold billRollup
  split
  · rfl
  · rw [if_neg]
    rw [List.isEmpty_iff]
    exact List.ne_nil_of_mem hmem

lemma rollupFold_billItems (d : DB) (ids : List Nat) (now : Nat) :
    (rollupFold d ids now).billItems = d.billItems := by
  unfold rollupFold
  induction ids generalizing d with
  | nil => rfl
  | cons a t ih => rw [List.foldl_cons, ih, billRollup_billItems]

lemma rollupFold_findBill_of_not_mem (d : DB) (ids : List Nat) (bid now : Nat)
    (h : bid ∉ ids) :
    findBill (rollupFold d ids now) bid = findBill d bid := by
  unfold rollupFold
  induction ids generalizing d with
  | nil => rfl
  | cons a t ih =>
    rw [List.foldl_cons]
    have hab : a ≠ bid := fun hc => h (by simp [hc])
    rw [ih (billRollup d a now) (fun hc => h (by simp [hc])),
      billRollup_findBill_other d a bid now hab]

lemma findBill_rollupMap (d : DB) (bid now : Nat) :
    findBill
      { d with
        bills := d.bills.map fun b =>
          if b.id == bid then { b with paid := true, paid_at := some now } else b } bid
      = (findBill d bid).map fun b => { b with paid := true, paid_at := some now } := by
  unfold findBill
  simp only
  rw [find?_map_comm _ _ _ (fun x => ?_)]
  · cases hfb : d.bills.find? fun b => b.id == bid with
    | none => rfl
    | some b =>
      have hid : b.id = bid := by simpa using List.find?_some hfb
      simp [hid]
  · by_cases hx : x.id == bid <;> simp [hx]

lemma rollupFold_findBill_of_settled (d : DB) (ids : List Nat) (bid now : Nat)
    (hne : (d.billItems.filter fun it => it.bill_id == bid) ≠ [])
    (hall : ∀ it ∈ d.billItems.filter fun it => it.bill_id == bid, it.paid = true)
    (hmem : bid ∈ ids) :
    findBill (rollupFold d ids now) bid
      = (findBill d bid).map fun b => { b with paid := true, paid_at := some now } := by
  induction ids generalizing d with
  | nil => simp at hmem
  | cons a t ih =>
    unfold rollupFold at ih ⊢
    rw [List.foldl_cons]
    by_cases hab : a = bid
    · subst hab
      have hfire := billRollup_fires d a now hne hall
      by_cases hmem2 : a ∈ t
      · have hne2 : ((billRollup d a now).billItems.filter fun it => it.bill_id == a) ≠ [] := by
          rw [billRollup_billItems]; exact hne
        have hall2 : ∀ it ∈ (billRollup d a now).billItems.filter fun it => it.bill_id == a,
            it.paid = true := by
          rw [billRollup_billItems]; exact hall
        rw [ih (billRollup d a now) hne2 hall2 hmem2, hfire, findBill_rollupMap,
          Option.map_map]
        cases findBill d a <;> rfl
      · rw [show List.foldl (fun d bid => billRollup d bid now) (billRollup d a now) t
              = rollupFold (billRollup d a now) t now from rfl,
          rollupFold_findBill_of_not_mem _ _ _ _ hmem2, hfire, findBill_rollupMap]
    · have hmem2 : bid ∈ t := by
        rcases List.mem_cons.mp hmem with h | h
        · exact absurd h.symm hab
        · exact h
      have hne2 : ((billRollup d a now).billItems.filter fun it => it.bill_id == bid) ≠ [] := by
        rw [billRollup_billItems]; exact hne
      have hall2 : ∀ it ∈ (billRollup d a now).billItems.filter fun it => it.bill_id == bid,
          it.paid = true := by
        rw [billRollup_billItems]; exact hall
      rw [ih (billRollup d a now) hne2 hall2 hmem2,
        billRollup_findBill_other d a bid now hab]

lemma billRollup_billsWithId_other (d : DB) (a bid now : Nat) (h : a ≠ bid) :
    billsWithId (billRollup d a now) bid = billsWithId d bid := by
  unfold billRollup
  split
  · rfl
  split
  · unfold billsWithId
    simp only
    rw [filter_map_comm _ _ _ (fun x => ?_)]
    · refine map_eq_self_of_mem _ _ fun x hx => ?_
      have hid : x.id = bid := by simpa using (List.mem_filter.mp hx).2
      have hxa : (x.id == a) = false :=
        beq_eq_false_iff_ne.mpr (by rw [hid]; exact fun hc => h hc.symm)
      simp [hxa]
    · by_cases hx : x.id == a <;> simp [hx]
  · rfl

lemma rollupFold_billsWithId_unpaid (d : DB) (ids : List Nat) (bid now : Nat)
    (h : ∃ it ∈ d.billItems, it.bill_id = bid ∧ it.paid = false) :
    billsWithId (rollupFold d ids now) bid = billsWithId d bid := by
  induction ids generalizing d with
  | nil => rfl
  | cons a t ih =>
    unfold rollupFold at ih ⊢
    rw [List.foldl_cons]
    by_cases hab : a = bid
    · subst hab
      rw [billRollup_skips d a now h]
      exact ih d h
    · have h2 : ∃ it ∈ (billRollup d a now).billItems, it.bill_id = bid ∧ it.paid = false := by
        rw [billRollup_billItems]; exact h
      rw [ih (billRollup d a now) h2, billRollup_billsWithId_other d a bid now hab]

/-- C3: `payments_process` settles a bill only when the bill has zero
remaining unpaid items, recomputed from the live `bill_items` rows: if
after the call some item of bill `bid` is still unpaid, every `bills` row
with that id is exactly as before the call — in particular a bill with an
unpaid item keeps `paid = 0`, no matter how many of its other items were
settled or what the amounts sum to. -/
theorem bill_settles_only_item_complete (db : DB) (raw : List String) (now bid : Nat)
    (h : ∃ it ∈ itemsOf (paymentsProcess db raw now).1 bid, it.paid = false) :
    billsWithId (paymentsProcess db raw now).1 bid = billsWithId db bid := by
  by_cases hemp : (parseItemIds raw).isEmpty
  · simp only [paymentsProcess, if_pos hemp]
  · simp only [paymentsProcess, if_neg hemp] at h ⊢
    set fetched := db.billItems.filter fun x => (parseItemIds raw).contains (x.id : Int)
      with hfet
    set db1 := payPhase1 db fetched now with hdb1
    set ids2 := (fetched.map fun x => x.bill_id).dedup with hids2
    have hitems : itemsOf (rollupFold db1 ids2 now) bid = itemsOf db1 bid := by
      unfold itemsOf
      rw [rollupFold_billItems]
    rw [hitems] at h
    obtain ⟨it, hit, hp⟩ := h
    have hmf := List.mem_filter.mp hit
    have h2 : ∃ x ∈ db1.billItems, x.bill_id = bid ∧ x.paid = false :=
      ⟨it, hmf.1, by simpa using hmf.2, hp⟩
    rw [rollupFold_billsWithId_unpaid db1 ids2 bid now h2]
    unfold billsWithId
    rw [hdb1, payPhase1_bills]

/-- C10: the bill-level rollup of `payments_process` fires with no guard on
the bill's current `paid` state: whenever some selected item belongs to
bill `bid` and all of the bill's items end up paid, the bill row is
rewritten to `paid = 1, paid_at = now` — overwriting any `paid_at` set
earlier (e.g. by `mark_bill_paid`), so bill-level `paid_at` assignment is
not at-most-once. -/
theorem bill_paid_at_overwritten_by_rollup (db : DB) (raw : List String) (now bid : Nat)
    (b : Bill) (it : BillItem)
    (hb : findBill db bid = some b)
    (hit : it ∈ db.billItems) (hbid : it.bill_id = bid)
    (hsel : (parseItemIds raw).contains (it.id : Int) = true)
    (hall : ∀ x ∈ itemsOf (paymentsProcess db raw now).1 bid, x.paid = true) :
    findBill (paymentsProcess db raw now).1 bid
      = some { b with paid := true, paid_at := some now } := by
  have hemp : ¬(parseItemIds raw).isEmpty := by
    intro hc
    rw [List.isEmpty_iff] at hc
    rw [hc] at hsel
    simp at hsel
  simp only [paymentsProcess, if_neg hemp] at hall ⊢
  set fetched := db.billItems.filter fun x => (parseItemIds raw).contains (x.id : Int)
    with hfet
  set db1 := payPhase1 db fetched now with hdb1
  set ids2 := (fetched.map fun x => x.bill_id).dedup with hids2
  have hitf : it ∈ fetched := by
    rw [hfet]
    exact List.mem_filter.mpr ⟨hit, hsel⟩
  have hmem : bid ∈ ids2 := by
    rw [hids2]
    exact List.mem_dedup.mpr (List.mem_map.mpr ⟨it, hitf, hbid⟩)
  have hne : db1.billItems.filter (fun x => x.bill_id == bid) ≠ [] := by
    have hmem1 : payAllUpd fetched now it ∈ db1.billItems := by
      rw [hdb1, payPhase1_billItems]
      exact List.mem_map_of_mem _ hit
    refine List.ne_nil_of_mem (List.mem_filter.mpr ⟨hmem1, ?_⟩)
    rw [payAllUpd_bill_id]
    simp [hbid]
  have hall1 : ∀ x ∈ db1.billItems.filter fun x => x.bill_id == bid, x.paid = true := by
    intro x hx
    apply hall
    unfold itemsOf
    rw [rollupFold_billItems]
    exact hx
  rw [rollupFold_findBill_of_settled db1 ids2 bid now hne hall1 hmem]
  have hfb1 : findBill db1 bid = findBill db bid := by
    unfold findBill
    rw [hdb1, payPhase1_bills]
  rw [hfb1, hb]
  rfl

/-- C5: `payments_process` is idempotent per item.  An unpaid selected item
is paid by the first call with `paid_at = n1`; a second call with the same
posted id set changes no `bill_items` row at all, so the item stays paid
exactly once with its original `paid_at`. -/
theorem pay_items_idempotent (db : DB) (raw : List String) (n1 n2 : Nat) (it : BillItem)
    (hnodup : (db.billItems.map fun x => x.id).Nodup)
    (hmem : it ∈ db.billItems)
    (hsel : (parseItemIds raw).contains (it.id : Int) = true)
    (hunpaid : it.paid = false) :
    findItem (paymentsProcess db raw n1).1 it.id
      = some { it with paid := true, paid_at := some n1 } ∧
    (paymentsProcess (paymentsProcess db raw n1).1 raw n2).1.billItems
      = (paymentsProcess db raw n1).1.billItems := by
  have hemp : ¬(parseItemIds raw).isEmpty := by
    intro hc
    rw [List.isEmpty_iff] at hc
    rw [hc] at hsel
    simp at hsel
  constructor
  · simp only [paymentsProcess, if_neg hemp]
    set fetched := db.billItems.filter fun x => (parseItemIds raw).contains (x.id : Int)
      with hfet
    have hstep : findItem (rollupFold (payPhase1 db fetched n1)
        ((fetched.map fun x => x.bill_id).dedup) n1) it.id
        = findItem (payPhase1 db fetched n1) it.id := by
      unfold findItem
      rw [rollupFold_billItems]
    rw [hstep, findItem_payPhase1]
    have hfind : findItem db it.id = some it := find?_of_mem_nodup _ _ hmem hnodup
    rw [hfind]
    have hitf : it ∈ fetched := by
      rw [hfet]
      exact List.mem_filter.mpr ⟨hmem, hsel⟩
    simp only [Option.map_some']
    rw [payAllUpd_hits fetched n1 it hunpaid ⟨it, hitf, rfl⟩]
  · set db1 := (paymentsProcess db raw n1).1 with hdb1
    have hpaid : ∀ y ∈ db1.billItems, (parseItemIds raw).contains (y.id : Int) = true →
        y.paid = true := by
      intro y hy hysel
      rw [hdb1] at hy
      simp only [paymentsProcess, if_neg hemp] at hy
      rw [rollupFold_billItems] at hy
      exact payPhase1_selected_paid db (parseItemIds raw) n1 y hy hysel
    simp only [paymentsProcess, if_neg hemp]
    rw [rollupFold_billItems]
    refine payPhase1_id_of_all_paid db1 _ n2 fun x hx hex => ?_
    obtain ⟨it2, hit2, hid2⟩ := hex
    have hsel2 : (parseItemIds raw).contains (x.id : Int) = true := by
      rw [← hid2]
      exact (List.mem_filter.mp hit2).2
    exact hpaid x hx hsel2

/-! ### mark_bill_paid (claims C6, C9) -/

/-- C6: `mark_bill_paid` returns 404 (NotFound) for a missing bill and 400
(AlreadyPaid) for a bill with `paid = 1`, changing nothing in either case;
on an existing unpaid bill it succeeds (204) and sets `paid = 1` and
`paid_at`. -/
theorem mark_bill_paid_spec (db : DB) (bid now : Nat) :
    (findBill db bid = none → markBillPaid db bid now = (db, MarkResult.notFound)) ∧
    (∀ b, findBill db bid = some b → b.paid = true →
      markBillPaid db bid now = (db, MarkResult.alreadyPaid)) ∧
    (∀ b, findBill db bid = some b → b.paid = false →
      (markBillPaid db bid now).2 = MarkResult.success ∧
      findBill (markBillPaid db bid now).1 bid
        = some { b with paid := true, paid_at := some now }) := by
  refine ⟨?_, ?_, ?_⟩
  · intro hnone
    unfold markBillPaid
    rw [show (db.bills.find? fun b => b.id == bid) = none from hnone]
  · intro b hsome hpaid
    unfold markBillPaid
    rw [show (db.bills.find? fun b => b.id == bid) = some b from hsome]
    dsimp only
    rw [if_pos hpaid]
  · intro b hsome hunpaid
    unfold markBillPaid
    rw [show (db.bills.find? fun b => b.id == bid) = some b from hsome]
    dsimp only
    rw [if_neg (by simp [hunpaid])]
    refine ⟨rfl, ?_⟩
    exact (show findBill
        { db with
          bills := db.bills.map fun x =>
            if x.id == bid then { x with paid := true, paid_at := some now } else x } bid
        = some { b with paid := true, paid_at := some now } from by
      rw [findBill_rollupMap, hsome]
      rfl)

/-- C9: on an existing unpaid bill, `mark_bill_paid` touches only that
bill row's `paid`/`paid_at` fields: the `bill_items` table is untouched (no
retroactive item settlement) and every other bill row is unchanged. -/
theorem mark_bill_paid_frame (db : DB) (bid now : Nat) (b : Bill)
    (hb : findBill db bid = some b) (hunpaid : b.paid = false) :
    (markBillPaid db bid now).1.billItems = db.billItems ∧
    (markBillPaid db bid now).1.bills
      = db.bills.map (fun x =>
          if x.id == bid then { x with paid := true, paid_at := some now } else x) ∧
    ∀ x ∈ db.bills, x.id ≠ bid → x ∈ (markBillPaid db bid now).1.bills := by
  unfold markBillPaid
  rw [show (db.bills.find? fun x => x.id == bid) = some b from hb]
  dsimp only
  rw [if_neg (by simp [hunpaid])]
  refine ⟨rfl, rfl, fun x hx hne => ?_⟩
  have hxid : (x.id == bid) = false := beq_eq_false_iff_ne.mpr hne
  have : (if x.id == bid then { x with paid := true, paid_at := some now } else x) = x := by
    simp [hxid]
  exact this ▸ List.mem_map_of_mem _ hx

/-! ### Edge-triggered lab charging (claim C4) -/

lemma ensureOpenBill_nextItemId (db : DB) (p now : Nat) :
    (ensureOpenBill db p now).nextItemId = db.nextItemId := by
  unfold ensureOpenBill
  split <;> rfl

lemma selectOpenBill_after_ensure (db : DB) (p now : Nat) :
    ∃ b, selectOpenBill (ensureOpenBill db p now) p = some b := by
  unfold ensureOpenBill
  split
  · rename_i hemp
    rw [List.isEmpty_iff] at hemp
    unfold openBillsFor at hemp
    refine ⟨{ id := db.nextBillId, patient_id := p, total_amount := 0,
              paid := false, created_at := now, paid_at := none }, ?_⟩
    unfold selectOpenBill openBillsFor
    simp only [List.filter_append, hemp, List.nil_append]
    rw [show (List.filter (isOpenFor p)
        [{ id := db.nextBillId, patient_id := p, total_amount := 0,
           paid := false, created_at := now, paid_at := none }])
      = [{ id := db.nextBillId, patient_id := p, total_amount := 0,
           paid := false, created_at := now, paid_at := none }] from by
      simp [isOpenFor]]
    rfl
  · rename_i hne
    rw [List.isEmpty_iff] at hne
    unfold selectOpenBill
    cases h : openBillsFor db p with
    | nil => exact absurd h hne
    | cons x xs => exact ⟨_, rfl⟩

lemma chargePatient_appends_one (db : DB) (p : Nat) (ty : String) (ref : Option Nat)
    (descr : Option String) (a : ℚ) (now : Nat) :
    ∃ bid, (chargePatient db p ty ref descr a now).billItems
      = db.billItems ++
        [{ id := db.nextItemId, bill_id := bid, item_type := ty, item_ref := ref,
           description := descr, amount := a, created_at := now,
           paid := false, paid_at := none }] := by
  obtain ⟨b, hb⟩ := selectOpenBill_after_ensure db p now
  refine ⟨b.id, ?_⟩
  unfold chargePatient
  rw [bumpOpenBillTotal_billItems]
  unfold insertItemForOpenBill
  rw [hb]
  simp only [ensureOpenBill_billItems, ensureOpenBill_nextItemId]

lemma countLabItemsFor_chargePatient (db : DB) (p : Nat) (ty : String) (ref : Option Nat)
    (descr : Option String) (a : ℚ) (now tid : Nat) :
    countLabItemsFor (chargePatient db p ty ref descr a now) tid
      = countLabItemsFor db tid
        + (if ty == "lab_test" && ref == some tid then 1 else 0) := by
  obtain ⟨bid, h⟩ := chargePatient_appends_one db p ty ref descr a now
  unfold countLabItemsFor
  rw [h, List.filter_append, List.length_append]
  congr 1
  cases hc : (ty == "lab_test" && ref == some tid) <;> simp [List.filter, hc]

lemma updateLabTestStatus_no_charge (db : DB) (tid : Nat) (s : String) (now : Nat)
    (lt : LabTest) (hf : (db.labTests.find? fun x => x.id == tid) = some lt)
    (hcond : ¬(s = "completed" ∧ lt.status ≠ "completed")) :
    (updateLabTestStatus db tid s now).billItems = db.billItems ∧
    (updateLabTestStatus db tid s now).bills = db.bills := by
  unfold updateLabTestStatus
  rw [hf]
  dsimp only
  split
  · split
    · rename_i hfire
      exfalso
      apply hcond
      simp only [Bool.and_eq_true, beq_iff_eq, bne_iff_ne] at hfire
      exact ⟨hfire.1, hfire.2⟩
    · exact ⟨rfl, rfl⟩
  · exact ⟨rfl, rfl⟩

/-- C4 (amended): lab-test charging is edge-triggered per transition: an
update moving an existing test into `completed` from a non-`completed`
status creates exactly one new `lab_test` bill item for that test, while
any update that is not such a transition (including re-saving an
already-`completed` test) and the insert of a lab test create no bill item
and leave `bills` untouched.  A test whose status re-enters `completed`
after leaving it is charged once per completing transition. -/
theorem lab_charging_edge_triggered (db : DB) (tid : Nat) (s : String) (now : Nat)
    (lt t : LabTest) (hf : (db.labTests.find? fun x => x.id == tid) = some lt) :
    countLabItemsFor (updateLabTestStatus db tid s now) tid
      = countLabItemsFor db tid
        + (if s = "completed" ∧ lt.status ≠ "completed" then 1 else 0) ∧
    (¬(s = "completed" ∧ lt.status ≠ "completed") →
      (updateLabTestStatus db tid s now).billItems = db.billItems ∧
      (updateLabTestStatus db tid s now).bills = db.bills) ∧
    (insertLabTest db t).billItems = db.billItems ∧
    (insertLabTest db t).bills = db.bills := by
  have hins : (insertLabTest db t).billItems = db.billItems ∧
      (insertLabTest db t).bills = db.bills := by
    unfold insertLabTest
    split <;> exact ⟨rfl, rfl⟩
  by_cases hcond : s = "completed" ∧ lt.status ≠ "completed"
  · obtain ⟨hs, hne⟩ := hcond
    have heq := updateLabTestStatus_completes db tid s now lt hf hs hne
    refine ⟨?_, fun hc => absurd ⟨hs, hne⟩ hc, hins.1, hins.2⟩
    rw [heq, if_pos (⟨hs, hne⟩ : _ ∧ _), countLabItemsFor_chargePatient]
    have hltid : lt.id = tid := by simpa using List.find?_some hf
    have hb : (("lab_test" : String) == "lab_test" && some lt.id == some tid) = true := by
      simp [hltid]
    rw [hb]
    rfl
  · have hnc := updateLabTestStatus_no_charge db tid s now lt hf hcond
    refine ⟨?_, fun _ => hnc, hins.1, hins.2⟩
    rw [if_neg hcond]
    unfold countLabItemsFor
    rw [hnc.1, Nat.add_zero]

/-- C4 counterexample: a lab test whose status cycles
`ordered → completed → in_progress → completed` receives two `lab_test`
bill items, so "exactly one bill item is created for every lab test" fails
as stated — the trigger charges once per completing transition. -/
theorem lab_test_double_charge_on_status_cycle :
    countLabItemsFor
      (run dbLab
        [Event.labStatus 1 "completed" 1, Event.labStatus 1 "in_progress" 2,
         Event.labStatus 1 "completed" 3]) 1 = 2 := by
  with_unfolding_all decide

/-- C7 counterexample: with posted ids `["abc", "5"]`, where item 5 exists
and is unpaid, `payments_process` reports "nothing to process" and pays
nothing — the valid id 5 is not processed, the whole batch is dropped. -/
theorem payments_mixed_invalid_batch_noop :
    paymentsProcess dbPay ["abc", "5"] 7 = (dbPay, PayResult.nothingToProcess) ∧
    (findItem dbPay 5).map (fun x => x.paid) = some false := by
  constructor
  · with_unfolding_all decide
  · with_unfolding_all decide

/-- C7 (amended): an empty posted id list, or a list containing any
non-numeric identifier, makes `payments_process` treat the whole batch as
empty: it reports "nothing to process" and changes no state; valid ids in
the same batch are not processed. -/
theorem payments_invalid_input_noop (db : DB) (raw : List String) (now : Nat)
    (h : raw = [] ∨ raw.any (fun x => (x.toInt?).isNone) = true) :
    paymentsProcess db raw now = (db, PayResult.nothingToProcess) := by
  have hids : parseItemIds raw = [] := by
    unfold parseItemIds
    rcases h with h | h
    · subst h
      rfl
    · rw [if_neg]
      intro hall
      rw [List.all_eq_true] at hall
      obtain ⟨x, hx, hnone⟩ := List.any_eq_true.mp h
      have hsome := hall x hx
      rw [Option.isNone_iff_eq_none] at hnone
      rw [hnone] at hsome
      simp at hsome
  simp only [paymentsProcess, hids]
  rfl

/-- C8 counterexample: a prescription item with a valid `medication_id`,
NULL quantity and unit price 5 is charged `5 × COALESCE(quantity, 1) = 5`,
not `5 × 0 = 0` as the nulls-as-zero reading predicts. -/
theorem null_quantity_charged_as_unit :
    ((insertPrescriptionItem dbPresc piNullQty 2).billItems.map fun x => x.amount)
      = [5] ∧ (5 : ℚ) ≠ 5 * 0 := by
  constructor
  · with_unfolding_all decide
  · norm_num

/-- C8 (amended): a chargeable event is never rejected for a missing
amount — a line item is always recorded; a NULL treatment cost is charged
as zero, and a prescription item admitted by the schema (its
`medication_id` is non-NULL and references an existing medication) is
charged `COALESCE(unit_price, 0) × COALESCE(quantity, 1)`: NULL unit price
counts as zero, NULL quantity as one. -/
theorem charge_amount_null_policy (db : DB) (t : Treatment) (pi : PrescriptionItem)
    (pr : Prescription) (mid n1 n2 : Nat)
    (hmid : pi.medication_id = some mid)
    (hmed : (db.medications.find? fun m => m.id == mid).isSome = true)
    (hf : (db.prescriptions.find? fun x => x.id == pi.prescription_id) = some pr) :
    ((insertTreatment db t n1).billItems.map fun x => x.amount)
      = (db.billItems.map fun x => x.amount) ++ [t.cost.getD 0] ∧
    ((insertPrescriptionItem db pi n2).billItems.map fun x => x.amount)
      = (db.billItems.map fun x => x.amount)
        ++ [pi.unit_price.getD 0 * ((pi.quantity.getD 1 : Int) : ℚ)] := by
  constructor
  · unfold insertTreatment
    obtain ⟨bid, h⟩ := chargePatient_appends_one db t.patient_id "treatment" (some t.id)
      (some (t.description.getD "Treatment")) (t.cost.getD 0) n1
    rw [h]
    simp
  · rw [insertPrescriptionItem_some db pi n2 pr mid hmid hmed hf]
    obtain ⟨bid, h⟩ := chargePatient_appends_one db pr.patient_id "medication" (some pi.id)
      (medicationName db pi.medication_id) (prescriptionItemAmount pi) n2
    rw [h]
    simp [prescriptionItemAmount]

/-! ### Witnesses: each hypothesis-bearing theorem applied at a concrete
store -/

/-- C1 witness: the invariant holds after two treatments for the same
patient starting from the empty store. -/
theorem single_open_bill_invariant_witness :
    SingleOpenBill (run DB.empty
      [Event.treatment { id := 1, patient_id := 7, description := none, cost := some 50 } 1,
       Event.treatment { id := 2, patient_id := 7, description := none, cost := some 30 } 2]) :=
  single_open_bill_invariant DB.empty _
    (fun p => by simp [openCount, openBillsFor, DB.empty])

/-- C2 witness: a treatment for 50 and a prescription item for 15 × 2
leave the open bill of patient 7 with total 80 and items [50, 30]. -/
theorem bill_additivity_witness :
    openBillsFor (run dbAdd evsAdd) 7
      = [{ id := 1, patient_id := 7, total_amount := ([50, 30] : List ℚ).sum,
           paid := false, created_at := 0, paid_at := none }] ∧
    (itemsOf (run dbAdd evsAdd) 1).length = ([(50 : ℚ), 30]).length ∧
    (itemsOf (run dbAdd evsAdd) 1).map (fun it => it.amount) = [50, 30] :=
  bill_additivity dbAdd 7
    { id := 1, patient_id := 7, total_amount := 0, paid := false,
      created_at := 0, paid_at := none }
    evsAdd [50, 30]
    (by with_unfolding_all decide) rfl rfl
    (ChargesTrace.cons ⟨rfl, rfl⟩
      (ChargesTrace.cons
        ⟨{ id := 1, patient_id := 7 }, 1, by with_unfolding_all decide, rfl,
          by with_unfolding_all decide, rfl, by with_unfolding_all decide⟩
        (ChargesTrace.nil _)))

/-- C3 witness: paying only item 5 of a bill that also carries unpaid item
6 leaves the bill row untouched. -/
theorem bill_settles_only_item_complete_witness :
    billsWithId (paymentsProcess dbTwo ["5"] 9).1 1 = billsWithId dbTwo 1 :=
  bill_settles_only_item_complete dbTwo ["5"] 9 1 (by with_unfolding_all decide)

/-- C5 witness: paying item 5 twice marks it paid once with `paid_at = 3`,
and the second call changes no item row. -/
theorem pay_items_idempotent_witness :
    findItem (paymentsProcess dbPay ["5"] 3).1 5
      = some { id := 5, bill_id := 1, item_type := "treatment", item_ref := some 3,
               description := some "stitches", amount := 40, created_at := 0,
               paid := true, paid_at := some 3 } ∧
    (paymentsProcess (paymentsProcess dbPay ["5"] 3).1 ["5"] 8).1.billItems
      = (paymentsProcess dbPay ["5"] 3).1.billItems :=
  pay_items_idempotent dbPay ["5"] 3 8
    { id := 5, bill_id := 1, item_type := "treatment", item_ref := some 3,
      description := some "stitches", amount := 40, created_at := 0,
      paid := false, paid_at := none }
    (by with_unfolding_all decide) (by with_unfolding_all decide)
    (by with_unfolding_all decide) rfl

/-- C6 witness: the three cases of `mark_bill_paid` at concrete stores:
missing bill 2 → NotFound, already-paid bill → AlreadyPaid, unpaid bill →
success with `paid = 1, paid_at = 9`. -/
theorem mark_bill_paid_spec_witness :
    markBillPaid dbPay 2 9 = (dbPay, MarkResult.notFound) ∧
    markBillPaid dbSettled 1 9 = (dbSettled, MarkResult.alreadyPaid) ∧
    ((markBillPaid dbPay 1 9).2 = MarkResult.success ∧
      findBill (markBillPaid dbPay 1 9).1 1
        = some { id := 1, patient_id := 2, total_amount := 40, paid := true,
                 created_at := 0, paid_at := some 9 }) :=
  ⟨(mark_bill_paid_spec dbPay 2 9).1 (by with_unfolding_all decide),
   (mark_bill_paid_spec dbSettled 1 9).2.1
     { id := 1, patient_id := 2, total_amount := 40, paid := true,
       created_at := 0, paid_at := some 5 }
     (by with_unfolding_all decide) rfl,
   (mark_bill_paid_spec dbPay 1 9).2.2
     { id := 1, patient_id := 2, total_amount := 40, paid := false,
       created_at := 0, paid_at := none }
     (by with_unfolding_all decide) rfl⟩

/-- C9 witness: directly marking bill 1 of `dbPay` paid leaves its single
item row and every other bill untouched. -/
theorem mark_bill_paid_frame_witness :
    (markBillPaid dbPay 1 9).1.billItems = dbPay.billItems ∧
    (markBillPaid dbPay 1 9).1.bills
      = dbPay.bills.map (fun x =>
          if x.id == 1 then { x with paid := true, paid_at := some 9 } else x) ∧
    ∀ x ∈ dbPay.bills, x.id ≠ 1 → x ∈ (markBillPaid dbPay 1 9).1.bills :=
  mark_bill_paid_frame dbPay 1 9
    { id := 1, patient_id := 2, total_amount := 40, paid := false,
      created_at := 0, paid_at := none }
    (by with_unfolding_all decide) rfl

/-- C10 witness: bill 1 of `dbSettled` was settled directly at time 5; the
rollup fired by paying its item rewrites `paid_at` to 9. -/
theorem bill_paid_at_overwritten_witness :
    findBill (paymentsProcess dbSettled ["5"] 9).1 1
      = some { id := 1, patient_id := 2, total_amount := 40, paid := true,
               created_at := 0, paid_at := some 9 } :=
  bill_paid_at_overwritten_by_rollup dbSettled ["5"] 9 1
    { id := 1, patient_id := 2, total_amount := 40, paid := true,
      created_at := 0, paid_at := some 5 }
    { id := 5, bill_id := 1, item_type := "treatment", item_ref := some 3,
      description := some "stitches", amount := 40, created_at := 0,
      paid := false, paid_at := none }
    (by with_unfolding_all decide) (by with_unfolding_all decide) rfl
    (by with_unfolding_all decide) (by with_unfolding_all decide)

/-- C4 witness: completing the `ordered` lab test of `dbLab` charges it
exactly once; inserting a fresh test charges nothing. -/
theorem lab_charging_edge_triggered_witness :
    countLabItemsFor (updateLabTestStatus dbLab 1 "completed" 2) 1
      = countLabItemsFor dbLab 1
        + (if ("completed" : String) = "completed" ∧ ("ordered" : String) ≠ "completed"
           then 1 else 0) ∧
    (¬(("completed" : String) = "completed" ∧ ("ordered" : String) ≠ "completed") →
      (updateLabTestStatus dbLab 1 "completed" 2).billItems = dbLab.billItems ∧
      (updateLabTestStatus dbLab 1 "completed" 2).bills = dbLab.bills) ∧
    (insertLabTest dbLab
      { id := 2, patient_id := 4, test_name := "bmp", status := "ordered",
        cost := none }).billItems = dbLab.billItems ∧
    (insertLabTest dbLab
      { id := 2, patient_id := 4, test_name := "bmp", status := "ordered",
        cost := none }).bills = dbLab.bills :=
  lab_charging_edge_triggered dbLab 1 "completed" 2
    { id := 1, patient_id := 4, test_name := "cbc", status := "ordered", cost := some 30 }
    { id := 2, patient_id := 4, test_name := "bmp", status := "ordered", cost := none }
    (by with_unfolding_all decide)

/-- C7 witness: a batch with only the non-numeric id `"zz"` is a reported
no-op. -/
theorem payments_invalid_input_noop_witness :
    paymentsProcess dbPay ["zz"] 3 = (dbPay, PayResult.nothingToProcess) :=
  payments_invalid_input_noop dbPay ["zz"] 3 (Or.inr (by with_unfolding_all decide))

/-- C8 witness: a treatment with NULL cost records a line item charging
`COALESCE(NULL, 0)`, and `piNullQty` records one charging
`5 × COALESCE(NULL, 1)`. -/
theorem charge_amount_null_policy_witness :
    ((insertTreatment dbPresc
        { id := 2, patient_id := 4, description := none, cost := none } 1).billItems.map
        fun x => x.amount)
      = (dbPresc.billItems.map fun x => x.amount)
        ++ [(none : Option ℚ).getD 0] ∧
    ((insertPrescriptionItem dbPresc piNullQty 2).billItems.map fun x => x.amount)
      = (dbPresc.billItems.map fun x => x.amount)
        ++ [piNullQty.unit_price.getD 0 * ((piNullQty.quantity.getD 1 : Int) : ℚ)] :=
  charge_amount_null_policy dbPresc
    { id := 2, patient_id := 4, description := none, cost := none }
    piNullQty { id := 1, patient_id := 4 } 1 1 2 rfl
    (by with_unfolding_all decide) (by with_unfolding_all decide)

end HMS
